import Mathlib

/-
Verification development for the process-supervision subsystem of
manage-bg-mcp.  The TypeScript services (ProcessLogBuffer.ts,
BgProcessManager.ts, ProcessController.ts, tool handlers) are shallowly
embedded as pure Lean functions: JS Maps become association lists with
unique keys, Date values become Nat ticks passed explicitly, promises and
thrown ProcessError values become Except results, and the external world
(filesystem checks, spawn outcomes, kill/wait behaviour of the OS) is
passed in as explicit parameters.
-/

namespace ManageBg

/-- Output stream tag of a log entry (the type field of LogEntry in LogData.ts). -/
inductive LogStream where
  | stdout
  | stderr
  deriving DecidableEq, Repr

/-- One buffered log line (LogEntry in LogData.ts); timestamps are Nat ticks. -/
structure LogEntry where
  type : LogStream
  line : String
  timestamp : Nat
  deriving DecidableEq, Repr

/-- Lookup in an association list, modelling JS Map.get: the first binding of
the key, none when absent. -/
def mapGet {κ α : Type} [DecidableEq κ] : List (κ × α) → κ → Option α
  | [], _ => none
  | (k, v) :: rest, key => if k = key then some v else mapGet rest key

/-- Update-or-insert, modelling JS Map.set: replaces the binding in place when
the key is present, otherwise appends a new binding at the end. -/
def mapSet {κ α : Type} [DecidableEq κ] : List (κ × α) → κ → α → List (κ × α)
  | [], key, v => [(key, v)]
  | (k, w) :: rest, key, v =>
      if k = key then (key, v) :: rest else (k, w) :: mapSet rest key v

/-- Deletion, modelling JS Map.delete on maps whose keys are unique (a JS Map
never holds two bindings of one key, so removing every binding of the key is
the same operation). -/
def mapDelete {κ α : Type} [DecidableEq κ] : List (κ × α) → κ → List (κ × α)
  | [], _ => []
  | (k, w) :: rest, key =>
      if k = key then mapDelete rest key else (k, w) :: mapDelete rest key

/-- Splits a character list at newline characters, producing the pieces that
the split of the string on the newline character yields. -/
def splitOnNewline : List Char → List (List Char)
  | [] => [[]]
  | c :: rest =>
      if c = '\n' then [] :: splitOnNewline rest
      else
        match splitOnNewline rest with
        | [] => [[c]]
        | p :: ps => (c :: p) :: ps

/-- Removes one trailing carriage return from a piece, used to model the
regex \r?\n: splitting on the newline character and stripping a carriage
return from the end of every piece that was followed by a newline is the
same as splitting on the regex. -/
def stripTrailingCR (cs : List Char) : List Char :=
  match cs.reverse with
  | '\x0d' :: rest => rest.reverse
  | _ => cs

/-- Strips the trailing carriage return from every piece except the last one
(only pieces that were followed by a newline in the original string came from
a line boundary of the regex). -/
def stripCRAllButLast : List (List Char) → List (List Char)
  | [] => []
  | [p] => [p]
  | p :: q :: rest => stripTrailingCR p :: stripCRAllButLast (q :: rest)

/-- ProcessLogBufferImpl.parseLines: splits the chunk on line boundaries
(the regex \r?\n) and removes empty lines; an empty chunk gives no lines. -/
def parseLines (data : String) : List String :=
  if data = "" then []
  else ((stripCRAllButLast (splitOnNewline data.data)).map
    (fun cs => String.mk cs)).filter (fun line => line.length > 0)

/-- One per-process buffer (LogBufferElement in ProcessLogBuffer.ts). -/
structure LogBufferElement where
  logs : List LogEntry
  lastUpdated : Nat
  deriving DecidableEq, Repr

/-- State of ProcessLogBufferImpl: the buffers map plus the configured
ceiling maxLines, generic in the process-id type. -/
structure ProcessLogBufferState (κ : Type) where
  buffers : List (κ × LogBufferElement)
  maxLines : Nat
  deriving DecidableEq, Repr

/-- The JS expression l.slice(-n): the sliced copy keeping the last n
elements, except that slice(-0) is slice(0) and keeps the whole array. -/
def jsSliceLast {α : Type} (l : List α) (n : Nat) : List α :=
  if n = 0 then l else l.drop (l.length - n)

/-- ProcessLogBufferImpl.enforceBufferLimits on the logs list: when the
length exceeds maxLines, keep only the slice(-maxLines) suffix. -/
def enforceBufferLimits (maxLines : Nat) (logs : List LogEntry) : List LogEntry :=
  if logs.length > maxLines then jsSliceLast logs maxLines else logs

/-- ProcessLogBufferImpl.getOrCreateBuffer: returns the existing buffer, or
inserts and returns a fresh empty one stamped with the current time. -/
def getOrCreateBuffer {κ : Type} [DecidableEq κ]
    (st : ProcessLogBufferState κ) (processId : κ) (now : Nat) :
    LogBufferElement × ProcessLogBufferState κ :=
  match mapGet st.buffers processId with
  | some b => (b, st)
  | none =>
      let b : LogBufferElement := { logs := [], lastUpdated := now }
      (b, { st with buffers := mapSet st.buffers processId b })

/-- Common body of ProcessLogBufferImpl.appendStdout and appendStderr: parse
the chunk into lines, turn each line into an entry tagged with the stream and
the current time, push the entries and enforce the ceiling; when the chunk
holds no line the state is left as getOrCreateBuffer produced it. -/
def appendStream {κ : Type} [DecidableEq κ] (ty : LogStream)
    (st : ProcessLogBufferState κ) (processId : κ) (data : String) (now : Nat) :
    ProcessLogBufferState κ :=
  let res := getOrCreateBuffer st processId now
  let buffer := res.1
  let st1 := res.2
  let lines := parseLines data
  if lines.length > 0 then
    let entries := lines.map (fun line => LogEntry.mk ty line now)
    let logs := enforceBufferLimits st1.maxLines (buffer.logs ++ entries)
    { st1 with buffers := mapSet st1.buffers processId { logs := logs, lastUpdated := now } }
  else st1

/-- ProcessLogBufferImpl.appendStdout. -/
def appendStdout {κ : Type} [DecidableEq κ]
    (st : ProcessLogBufferState κ) (processId : κ) (data : String) (now : Nat) :
    ProcessLogBufferState κ :=
  appendStream LogStream.stdout st processId data now

/-- ProcessLogBufferImpl.appendStderr. -/
def appendStderr {κ : Type} [DecidableEq κ]
    (st : ProcessLogBufferState κ) (processId : κ) (data : String) (now : Nat) :
    ProcessLogBufferState κ :=
  appendStream LogStream.stderr st processId data now

/-- Result of getLatestLogs (LogData in LogData.ts). -/
structure LogData where
  logs : List LogEntry
  lastUpdated : Nat
  deriving DecidableEq, Repr

/-- ProcessLogBufferImpl.getLatestLogs: an unknown id yields an empty list
with a fresh timestamp; a limit is applied only when it is present and
positive, in which case the slice(-lines) suffix is returned. -/
def getLatestLogs {κ : Type} [DecidableEq κ]
    (st : ProcessLogBufferState κ) (processId : κ) (lines : Option Nat) (now : Nat) :
    LogData :=
  match mapGet st.buffers processId with
  | none => { logs := [], lastUpdated := now }
  | some buffer =>
      let logs :=
        match lines with
        | some n => if n > 0 then jsSliceLast buffer.logs n else buffer.logs
        | none => buffer.logs
      { logs := logs, lastUpdated := buffer.lastUpdated }

/-- ProcessLogBufferImpl.clearLogs. -/
def clearLogs {κ : Type} [DecidableEq κ]
    (st : ProcessLogBufferState κ) (processId : κ) : ProcessLogBufferState κ :=
  { st with buffers := mapDelete st.buffers processId }

/-- Process execution status (ManagedProcess.ts). -/
inductive ProcessStatus where
  | running
  | stopped
  | error
  deriving DecidableEq, Repr

/-- A managed process record (ManagedProcess.ts); optional TS fields become
Option, Date fields become Nat ticks, and the supervisor-assigned uuid id is
modelled as a Nat drawn from a fresh-id counter. -/
structure ManagedProcess where
  id : Nat
  pid : Nat
  command : String
  args : List String
  cwd : String
  status : ProcessStatus
  startTime : Nat
  endTime : Option Nat
  exitCode : Option Int
  deriving DecidableEq, Repr

/-- Error kinds of the ProcessError taxonomy (errors.ts). -/
inductive ErrorType where
  | INVALID_COMMAND
  | DIRECTORY_NOT_FOUND
  | PROCESS_NOT_FOUND
  | SPAWN_FAILED
  | TERMINATION_FAILED
  | PERMISSION_DENIED
  | VALIDATION_ERROR
  | TIMEOUT_ERROR
  | RESOURCE_EXHAUSTED
  | INTERNAL_ERROR
  | CONCURRENT_ACCESS
  deriving DecidableEq, Repr

/-- A thrown ProcessError (errors.ts): kind, detail string, optional id. -/
structure ProcessError where
  type : ErrorType
  details : String
  processId : Option Nat
  deriving DecidableEq, Repr

/-- State of BgProcessManagerImpl: the processes map (id to record) plus the
counter modelling uuidv4 as a supply of fresh identifiers that are never
repeated (generateProcessId returns the counter value and bumps it). -/
structure BgProcessManagerState where
  processes : List (Nat × ManagedProcess)
  nextId : Nat
  deriving DecidableEq, Repr

/-- Argument of startProcess (the config parameter). -/
structure StartConfig where
  command : String
  args : Option (List String)
  cwd : Option String
  deriving DecidableEq, Repr

/-- Outcome of the ProcessController.spawn call, passed in explicitly: the
promise either resolves with a spawn result carrying a pid or rejects with an
error message. -/
inductive SpawnOutcome where
  | ok (pid : Nat)
  | err (msg : String)
  deriving DecidableEq, Repr

/-- BgProcessManagerImpl.startProcess.  External inputs are explicit: the
default working directory (process.cwd()), the validateDirectory verdict as a
predicate on paths, the spawn outcome, and the current time.  The Bool output
records whether the spawn call was reached. -/
def startProcess (st : BgProcessManagerState) (config : StartConfig)
    (defaultCwd : String) (dirOk : String → Bool) (spawn : SpawnOutcome)
    (now : Nat) :
    Except ProcessError ManagedProcess × BgProcessManagerState × Bool :=
  let args := config.args.getD []
  let cwd := config.cwd.getD defaultCwd
  if dirOk cwd = false then
    (Except.error
      { type := ErrorType.DIRECTORY_NOT_FOUND
        details := "Directory not found: " ++ cwd
        processId := none },
     st, false)
  else
    let processId := st.nextId
    let st1 := { st with nextId := st.nextId + 1 }
    match spawn with
    | SpawnOutcome.err msg =>
        (Except.error
          { type := ErrorType.SPAWN_FAILED
            details := "Failed to spawn process: " ++ msg
            processId := none },
         st1, true)
    | SpawnOutcome.ok pid =>
        let managedProcess : ManagedProcess :=
          { id := processId
            pid := pid
            command := config.command
            args := args
            cwd := cwd
            status := ProcessStatus.running
            startTime := now
            endTime := none
            exitCode := none }
        (Except.ok managedProcess,
         { st1 with processes := mapSet st1.processes processId managedProcess },
         true)

/-- BgProcessManagerImpl.updateProcessStatus: a missing record is left alone;
otherwise the record is replaced, exitCode is overwritten with the given value
and endTime is recomputed from the new status. -/
def updateProcessStatus (st : BgProcessManagerState) (processId : Nat)
    (status : ProcessStatus) (exitCode : Option Int) (now : Nat) :
    BgProcessManagerState :=
  match mapGet st.processes processId with
  | none => st
  | some mp =>
      { st with
        processes := mapSet st.processes processId
          { mp with
            status := status
            exitCode := exitCode
            endTime := if status = ProcessStatus.running then none else some now } }

/-- The onExit callback registered by setupEventHandlers: exit code 0 gives
status stopped, any other code (or a null code) gives error; the code (null
becoming absent) is recorded as the exitCode. -/
def handleExit (st : BgProcessManagerState) (processId : Nat)
    (code : Option Int) (now : Nat) : BgProcessManagerState :=
  let status :=
    if code = some 0 then ProcessStatus.stopped else ProcessStatus.error
  updateProcessStatus st processId status code now

/-- The onError callback registered by setupEventHandlers: the error message
is appended to the stderr log and the record is marked error with no exit
code. -/
def handleError (st : BgProcessManagerState) (buf : ProcessLogBufferState Nat)
    (processId : Nat) (errMsg : String) (now : Nat) :
    BgProcessManagerState × ProcessLogBufferState Nat :=
  (updateProcessStatus st processId ProcessStatus.error none now,
   appendStderr buf processId ("Process error: " ++ errMsg ++ "\n") now)

/-- Outcome of one call into the process controller: the call either returns
a value or throws with a message. -/
inductive CtrlRes (α : Type) where
  | ok (a : α)
  | threw (msg : String)
  deriving DecidableEq, Repr

/-- Behaviour of the ProcessController for one stop sequence: the result of
the non-forceful kill, of the forceful kill, and of waitForExit. -/
structure CtrlBehavior where
  killTerm : CtrlRes Bool
  killForce : CtrlRes Bool
  waitExit : CtrlRes Unit
  deriving DecidableEq, Repr

/-- A call made on the process controller, recorded in the trace. -/
inductive CtrlCall where
  | kill (pid : Nat) (force : Bool)
  | waitForExit (pid : Nat)
  deriving DecidableEq, Repr

/-- The catch clause of stopProcess: mark the record error and fail with
TERMINATION_FAILED carrying the process id. -/
def stopCatch (st : BgProcessManagerState) (processId : Nat) (msg : String)
    (now : Nat) (trace : List CtrlCall) :
    Except ProcessError Unit × BgProcessManagerState × List CtrlCall :=
  (Except.error
    { type := ErrorType.TERMINATION_FAILED
      details := "Failed to stop process: " ++ msg
      processId := some processId },
   updateProcessStatus st processId ProcessStatus.error none now,
   trace)

/-- BgProcessManagerImpl.stopProcess, with the controller behaviour passed in
and the calls made on the controller returned as a trace. -/
def stopProcess (st : BgProcessManagerState) (processId : Nat)
    (ctrl : CtrlBehavior) (now : Nat) :
    Except ProcessError Unit × BgProcessManagerState × List CtrlCall :=
  match mapGet st.processes processId with
  | none =>
      (Except.error
        { type := ErrorType.PROCESS_NOT_FOUND
          details := "Process not found: " ++ toString processId
          processId := none },
       st, [])
  | some mp =>
      if mp.status ≠ ProcessStatus.running then
        (Except.ok (), st, [])
      else
        match ctrl.killTerm with
        | CtrlRes.threw msg =>
            stopCatch st processId msg now [CtrlCall.kill mp.pid false]
        | CtrlRes.ok killed =>
            if killed then
              match ctrl.waitExit with
              | CtrlRes.threw msg =>
                  stopCatch st processId msg now
                    [CtrlCall.kill mp.pid false, CtrlCall.waitForExit mp.pid]
              | CtrlRes.ok _ =>
                  (Except.ok (), st,
                   [CtrlCall.kill mp.pid false, CtrlCall.waitForExit mp.pid])
            else
              match ctrl.killForce with
              | CtrlRes.threw msg =>
                  stopCatch st processId msg now
                    [CtrlCall.kill mp.pid false, CtrlCall.kill mp.pid true]
              | CtrlRes.ok _ =>
                  match ctrl.waitExit with
                  | CtrlRes.threw msg =>
                      stopCatch st processId msg now
                        [CtrlCall.kill mp.pid false, CtrlCall.kill mp.pid true,
                         CtrlCall.waitForExit mp.pid]
                  | CtrlRes.ok _ =>
                      (Except.ok (), st,
                       [CtrlCall.kill mp.pid false, CtrlCall.kill mp.pid true,
                        CtrlCall.waitForExit mp.pid])

/-- Tail of BgProcessManagerImpl.restartProcess after the stop step: delete
the old record, clear its logs, and start with the configuration captured
from the old record (its command, args and cwd). -/
def restartFinish (st2 : BgProcessManagerState) (buf : ProcessLogBufferState Nat)
    (processId : Nat) (mp : ManagedProcess) (defaultCwd : String)
    (dirOk : String → Bool) (spawn : SpawnOutcome) (now : Nat) :
    Except ProcessError Nat × BgProcessManagerState × ProcessLogBufferState Nat :=
  match startProcess { st2 with processes := mapDelete st2.processes processId }
      { command := mp.command, args := some mp.args, cwd := some mp.cwd }
      defaultCwd dirOk spawn now with
  | (Except.error e, st4, _) => (Except.error e, st4, clearLogs buf processId)
  | (Except.ok newMp, st4, _) => (Except.ok newMp.id, st4, clearLogs buf processId)

/-- Body of restartProcess once the record was found: stop it when still
running (propagating a stop failure without deleting anything), then finish
with deletion, log clearing and the fresh start. -/
def restartGo (st : BgProcessManagerState) (buf : ProcessLogBufferState Nat)
    (processId : Nat) (mp : ManagedProcess) (ctrl : CtrlBehavior)
    (defaultCwd : String) (dirOk : String → Bool) (spawn : SpawnOutcome)
    (now : Nat) :
    Except ProcessError Nat × BgProcessManagerState × ProcessLogBufferState Nat :=
  if mp.status = ProcessStatus.running then
    match stopProcess st processId ctrl now with
    | (Except.error e, st2, _) => (Except.error e, st2, buf)
    | (Except.ok _, st2, _) =>
        restartFinish st2 buf processId mp defaultCwd dirOk spawn now
  else restartFinish st buf processId mp defaultCwd dirOk spawn now

/-- BgProcessManagerImpl.restartProcess: look the record up (failing with
PROCESS_NOT_FOUND when absent), capture its configuration, stop it when still
running, then delete the record, clear its logs and start with the captured
configuration, returning the new id. -/
def restartProcess (st : BgProcessManagerState) (buf : ProcessLogBufferState Nat)
    (processId : Nat) (ctrl : CtrlBehavior) (defaultCwd : String)
    (dirOk : String → Bool) (spawn : SpawnOutcome) (now : Nat) :
    Except ProcessError Nat × BgProcessManagerState × ProcessLogBufferState Nat :=
  match mapGet st.processes processId with
  | none =>
      (Except.error
        { type := ErrorType.PROCESS_NOT_FOUND
          details := "Process not found: " ++ toString processId
          processId := none },
       st, buf)
  | some mp => restartGo st buf processId mp ctrl defaultCwd dirOk spawn now

/-- The id collection at the head of stopAllProcesses: records whose status
is running, mapped to their ids. -/
def runningIds (st : BgProcessManagerState) : List Nat :=
  (st.processes.filter
    (fun kv => decide (kv.2.status = ProcessStatus.running))).map
    (fun kv => kv.2.id)

/-- One constituent stop of stopAllProcesses: the attempt is recorded with
the success of its stop and any failure is swallowed (Promise.allSettled). -/
def stopAllLoop (ctrl : Nat → CtrlBehavior) (now : Nat)
    (acc : BgProcessManagerState × List (Nat × Bool)) (id : Nat) :
    BgProcessManagerState × List (Nat × Bool) :=
  let r := stopProcess acc.1 id (ctrl id) now
  (r.2.1, acc.2 ++ [(id, r.1.toBool)])

/-- BgProcessManagerImpl.stopAllProcesses: collect the ids of the records
whose status is running, then issue stopProcess for each; Promise.allSettled
means every attempt runs regardless of the outcomes of the others, so the
fold records each attempted id with the success of its stop and never fails
itself.  The per-id controller behaviour is passed as a function. -/
def stopAllProcesses (st : BgProcessManagerState) (ctrl : Nat → CtrlBehavior)
    (now : Nat) : BgProcessManagerState × List (Nat × Bool) :=
  (runningIds st).foldl (stopAllLoop ctrl now) (st, [])

/-- BgProcessManagerImpl.listProcesses. -/
def listProcesses (st : BgProcessManagerState) : List ManagedProcess :=
  st.processes.map (fun kv => kv.2)

/-- BgProcessManagerImpl.getProcessInfo: undefined for an unknown id. -/
def getProcessInfo (st : BgProcessManagerState) (processId : Nat) :
    Option ManagedProcess :=
  mapGet st.processes processId

/-- BgProcessManagerImpl.getProcessLogs: undefined for an unknown id,
otherwise the buffer read. -/
def getProcessLogs (st : BgProcessManagerState) (buf : ProcessLogBufferState Nat)
    (processId : Nat) (lines : Option Nat) (now : Nat) : Option LogData :=
  match mapGet st.processes processId with
  | none => none
  | some _ => some (getLatestLogs buf processId lines now)

/-- Outcome of the stop_all tool handler that the caller sees. -/
structure StopAllResponse where
  success : Bool
  stoppedCount : Nat
  deriving DecidableEq, Repr

/-- StopAllHandler.handle: count the running processes first; zero running
gives an immediate success with stoppedCount 0, otherwise stopAllProcesses is
awaited (it never rejects) and the handler reports the count it captured. -/
def stopAllHandlerHandle (st : BgProcessManagerState) (ctrl : Nat → CtrlBehavior)
    (now : Nat) : StopAllResponse × BgProcessManagerState :=
  let runningCount :=
    ((listProcesses st).filter
      (fun p => decide (p.status = ProcessStatus.running))).length
  if runningCount = 0 then
    ({ success := true, stoppedCount := 0 }, st)
  else
    let r := stopAllProcesses st ctrl now
    ({ success := true, stoppedCount := runningCount }, r.1)

/-- Reachability of a supervisor state: the fresh supervisor (empty map,
counter at zero) closed under the public operations and the asynchronous
lifecycle events, with arbitrary external inputs (configurations, spawn
outcomes, controller behaviours, clock values). -/
inductive Reachable : BgProcessManagerState → Prop where
  | init : Reachable { processes := [], nextId := 0 }
  | start (st : BgProcessManagerState) (config : StartConfig)
      (defaultCwd : String) (dirOk : String → Bool) (spawn : SpawnOutcome)
      (now : Nat) :
      Reachable st →
      Reachable (startProcess st config defaultCwd dirOk spawn now).2.1
  | exitEvt (st : BgProcessManagerState) (processId : Nat) (code : Option Int)
      (now : Nat) :
      Reachable st → Reachable (handleExit st processId code now)
  | errorEvt (st : BgProcessManagerState) (buf : ProcessLogBufferState Nat)
      (processId : Nat) (msg : String) (now : Nat) :
      Reachable st → Reachable (handleError st buf processId msg now).1
  | stopOp (st : BgProcessManagerState) (processId : Nat) (ctrl : CtrlBehavior)
      (now : Nat) :
      Reachable st → Reachable (stopProcess st processId ctrl now).2.1
  | restartOp (st : BgProcessManagerState) (buf : ProcessLogBufferState Nat)
      (processId : Nat) (ctrl : CtrlBehavior) (defaultCwd : String)
      (dirOk : String → Bool) (spawn : SpawnOutcome) (now : Nat) :
      Reachable st →
      Reachable (restartProcess st buf processId ctrl defaultCwd dirOk spawn now).2.1
  | stopAllOp (st : BgProcessManagerState) (ctrl : Nat → CtrlBehavior) (now : Nat) :
      Reachable st → Reachable (stopAllProcesses st ctrl now).1

/-- Per-record invariant: endTime is present exactly on the terminal
statuses, a running record carries no exit code, and a stopped record always
carries exit code 0 (only a clean exit produces the stopped status). -/
def RecordInv (mp : ManagedProcess) : Prop :=
  (mp.status = ProcessStatus.running ↔ mp.endTime = none) ∧
  (mp.status = ProcessStatus.running → mp.exitCode = none) ∧
  (mp.status = ProcessStatus.stopped → mp.exitCode = some 0)

/-- Supervisor state invariant: every stored record sits under its own id,
that id is below the fresh-id counter, and the record satisfies RecordInv. -/
def StateInv (st : BgProcessManagerState) : Prop :=
  ∀ id mp, mapGet st.processes id = some mp →
    id < st.nextId ∧ mp.id = id ∧ RecordInv mp

/-- Buffer ceiling invariant: every stored buffer holds at most maxLines
entries. -/
def BufInv {κ : Type} [DecidableEq κ] (st : ProcessLogBufferState κ) : Prop :=
  ∀ k b, mapGet st.buffers k = some b → b.logs.length ≤ st.maxLines

/-- The entries a process id currently retains (empty when it has no
buffer); used to state what an append does to the retained sequence. -/
def oldLogs {κ : Type} [DecidableEq κ] (st : ProcessLogBufferState κ)
    (processId : κ) : List LogEntry :=
  match mapGet st.buffers processId with
  | some b => b.logs
  | none => []

/-- Demo log entry for the concrete witnesses. -/
def demoEntry : LogEntry := LogEntry.mk LogStream.stdout "l1" 0

/-- Demo buffer state holding one entry under id p with ceiling 3. -/
def demoBuf : ProcessLogBufferState String :=
  ProcessLogBufferState.mk [("p", LogBufferElement.mk [demoEntry] 0)] 3

/-- Demo start configuration for the concrete witnesses. -/
def demoConfig : StartConfig :=
  { command := "node", args := some ["server.js"], cwd := some "/srv" }

/-- Supervisor state after one successful start on the fresh supervisor:
one running record under id 0 with pid 42, started at tick 5. -/
def demoStart : BgProcessManagerState :=
  (startProcess { processes := [], nextId := 0 } demoConfig "/" (fun _ => true)
    (SpawnOutcome.ok 42) 5).2.1

/-- The running record demoStart holds under id 0. -/
def demoRecord : ManagedProcess :=
  { id := 0, pid := 42, command := "node", args := ["server.js"], cwd := "/srv"
    status := ProcessStatus.running, startTime := 5, endTime := none
    exitCode := none }

/-- Supervisor state after the exit event with code 0 reached demoStart:
the record is terminal (stopped, exit code 0, endTime 6). -/
def demoTerm : BgProcessManagerState := handleExit demoStart 0 (some 0) 6

/-- The terminal record demoTerm holds under id 0. -/
def demoTermRecord : ManagedProcess :=
  { id := 0, pid := 42, command := "node", args := ["server.js"], cwd := "/srv"
    status := ProcessStatus.stopped, startTime := 5, endTime := some 6
    exitCode := some 0 }

/-- Well-behaved controller behaviour for the concrete witnesses: both kill
calls report delivery and the wait returns. -/
def demoCtrl : CtrlBehavior :=
  CtrlBehavior.mk (CtrlRes.ok true) (CtrlRes.ok true) (CtrlRes.ok ())

/-- Nat-keyed demo log-buffer state holding one entry under process id 0. -/
def demoBufN : ProcessLogBufferState Nat :=
  ProcessLogBufferState.mk [(0, LogBufferElement.mk [demoEntry] 0)] 3

theorem mapGet_mapSet {κ α : Type} [DecidableEq κ]
    (m : List (κ × α)) (key i : κ) (v : α) :
    mapGet (mapSet m key v) i = if key = i then some v else mapGet m i := by
  induction m with
  | nil => simp [mapGet, mapSet]
  | cons kv rest ih =>
      obtain ⟨k, w⟩ := kv
      by_cases hk : k = key
      · subst hk
        by_cases hi : k = i
        · subst hi
          simp [mapGet, mapSet]
        · simp [mapGet, mapSet, hi]
      · by_cases hi : k = i
        · have hk2 : ¬ key = i := fun h => hk (hi.trans h.symm)
          have hik : ¬ i = key := fun h => hk2 h.symm
          simp [mapGet, mapSet, hk, hi, hk2, hik]
        · simp [mapGet, mapSet, hk, hi, ih]

theorem mapGet_mapDelete {κ α : Type} [DecidableEq κ]
    (m : List (κ × α)) (key i : κ) :
    mapGet (mapDelete m key) i = if i = key then none else mapGet m i := by
  induction m with
  | nil => simp [mapGet, mapDelete]
  | cons kv rest ih =>
      obtain ⟨k, w⟩ := kv
      by_cases hk : k = key
      · subst hk
        by_cases hi : i = k
        · subst hi
          simp [mapGet, mapDelete, ih]
        · have hki : ¬ k = i := fun h => hi h.symm
          simp [mapGet, mapDelete, hi, hki, ih]
      · by_cases hki : k = i
        · have hik : ¬ i = key := fun h => hk (hki.trans h)
          simp [mapGet, mapDelete, hk, hki, hik]
        · simp [mapGet, mapDelete, hk, hki, ih]

theorem updateProcessStatus_nextId (st : BgProcessManagerState)
    (processId : Nat) (status : ProcessStatus) (exitCode : Option Int)
    (now : Nat) :
    (updateProcessStatus st processId status exitCode now).nextId = st.nextId := by
  unfold updateProcessStatus
  cases mapGet st.processes processId <;> rfl

/-- The state a stopProcess call leaves behind is either unchanged or the
error-marking update of the target record. -/
theorem stopProcess_state (st : BgProcessManagerState) (processId : Nat)
    (ctrl : CtrlBehavior) (now : Nat) :
    (stopProcess st processId ctrl now).2.1 = st ∨
    (stopProcess st processId ctrl now).2.1 =
      updateProcessStatus st processId ProcessStatus.error none now := by
  unfold stopProcess
  repeat' first
    | (left; rfl)
    | (right; rfl)
    | split

theorem updateProcessStatus_inv (st : BgProcessManagerState) (processId : Nat)
    (status : ProcessStatus) (exitCode : Option Int) (now : Nat)
    (h : StateInv st) (hs : status ≠ ProcessStatus.running)
    (hc : status = ProcessStatus.stopped → exitCode = some 0) :
    StateInv (updateProcessStatus st processId status exitCode now) := by
  unfold updateProcessStatus
  cases hg : mapGet st.processes processId with
  | none => exact h
  | some mp =>
      intro id mp2 h2
      have h2a : mapGet (mapSet st.processes processId
          { mp with
            status := status
            exitCode := exitCode
            endTime := if status = ProcessStatus.running then none
                       else some now }) id = some mp2 := h2
      rw [mapGet_mapSet] at h2a
      by_cases hid : processId = id
      · subst hid
        rw [if_pos rfl] at h2a
        obtain ⟨h1, h2id, _⟩ := h processId mp hg
        injection h2a with h2a
        subst h2a
        refine ⟨h1, h2id, ?_, ?_, ?_⟩
        · show status = ProcessStatus.running ↔
            (if status = ProcessStatus.running then none else some now) = none
          rw [if_neg hs]
          simp [hs]
        · intro hrun
          exact absurd hrun hs
        · exact hc
      · rw [if_neg hid] at h2a
        exact h id mp2 h2a

theorem startProcess_inv (st : BgProcessManagerState) (config : StartConfig)
    (defaultCwd : String) (dirOk : String → Bool) (spawn : SpawnOutcome)
    (now : Nat) (h : StateInv st) :
    StateInv (startProcess st config defaultCwd dirOk spawn now).2.1 := by
  unfold startProcess
  by_cases hdir : dirOk (config.cwd.getD defaultCwd) = false
  · rw [if_pos hdir]
    exact h
  · rw [if_neg hdir]
    cases spawn with
    | err msg =>
        intro id mp2 h2
        obtain ⟨h1, h2id, h3⟩ := h id mp2 h2
        exact ⟨Nat.lt_succ_of_lt h1, h2id, h3⟩
    | ok pid =>
      intro id mp2 h2
      have h2a : mapGet (mapSet st.processes st.nextId
          { id := st.nextId
            pid := pid
            command := config.command
            args := config.args.getD []
            cwd := config.cwd.getD defaultCwd
            status := ProcessStatus.running
            startTime := now
            endTime := none
            exitCode := none }) id = some mp2 := h2
      rw [mapGet_mapSet] at h2a
      by_cases hid : st.nextId = id
      · subst hid
        rw [if_pos rfl] at h2a
        injection h2a with h2a
        subst h2a
        exact ⟨Nat.lt_succ_self _, rfl, by simp [RecordInv], fun _ => rfl,
          fun hco => absurd hco (by simp)⟩
      · rw [if_neg hid] at h2a
        obtain ⟨h1, h2id, h3⟩ := h id mp2 h2a
        exact ⟨Nat.lt_succ_of_lt h1, h2id, h3⟩

theorem handleExit_inv (st : BgProcessManagerState) (processId : Nat)
    (code : Option Int) (now : Nat) (h : StateInv st) :
    StateInv (handleExit st processId code now) := by
  unfold handleExit
  by_cases hc : code = some 0
  · simp only [hc, if_pos rfl]
    exact updateProcessStatus_inv _ _ _ _ _ h (by simp) (fun _ => hc ▸ rfl)
  · simp only [if_neg hc]
    exact updateProcessStatus_inv _ _ _ _ _ h (by simp) (by simp)

theorem handleError_inv (st : BgProcessManagerState)
    (buf : ProcessLogBufferState Nat) (processId : Nat) (msg : String)
    (now : Nat) (h : StateInv st) :
    StateInv (handleError st buf processId msg now).1 := by
  unfold handleError
  exact updateProcessStatus_inv _ _ _ _ _ h (by simp) (by simp)

theorem stopProcess_inv (st : BgProcessManagerState) (processId : Nat)
    (ctrl : CtrlBehavior) (now : Nat) (h : StateInv st) :
    StateInv (stopProcess st processId ctrl now).2.1 := by
  rcases stopProcess_state st processId ctrl now with he | he
  · rw [he]; exact h
  · rw [he]
    exact updateProcessStatus_inv _ _ _ _ _ h (by simp) (by simp)

theorem mapDelete_inv (st : BgProcessManagerState) (key : Nat)
    (h : StateInv st) :
    StateInv { st with processes := mapDelete st.processes key } := by
  intro id mp2 h2
  simp only [mapGet_mapDelete] at h2
  by_cases hid : id = key
  · simp [hid] at h2
  · simp only [if_neg hid] at h2
    exact h id mp2 h2

theorem restartFinish_inv (st2 : BgProcessManagerState)
    (buf : ProcessLogBufferState Nat) (processId : Nat) (mp : ManagedProcess)
    (defaultCwd : String) (dirOk : String → Bool) (spawn : SpawnOutcome)
    (now : Nat) (h : StateInv st2) :
    StateInv (restartFinish st2 buf processId mp defaultCwd dirOk spawn now).2.1 := by
  unfold restartFinish
  have h4 := startProcess_inv
    { st2 with processes := mapDelete st2.processes processId }
    { command := mp.command, args := some mp.args, cwd := some mp.cwd }
    defaultCwd dirOk spawn now (mapDelete_inv st2 processId h)
  rcases hr : startProcess
      { st2 with processes := mapDelete st2.processes processId }
      { command := mp.command, args := some mp.args, cwd := some mp.cwd }
      defaultCwd dirOk spawn now with ⟨res, st4, b⟩
  rw [hr] at h4
  cases res with
  | error e => exact h4
  | ok newMp => exact h4

theorem restartGo_inv (st : BgProcessManagerState)
    (buf : ProcessLogBufferState Nat) (processId : Nat) (mp : ManagedProcess)
    (ctrl : CtrlBehavior) (defaultCwd : String) (dirOk : String → Bool)
    (spawn : SpawnOutcome) (now : Nat) (h : StateInv st) :
    StateInv (restartGo st buf processId mp ctrl defaultCwd dirOk spawn now).2.1 := by
  unfold restartGo
  by_cases hrun : mp.status = ProcessStatus.running
  · rw [if_pos hrun]
    have h2 := stopProcess_inv st processId ctrl now h
    rcases hsp : stopProcess st processId ctrl now with ⟨res, st2, tr⟩
    rw [hsp] at h2
    cases res with
    | error e => exact h2
    | ok u => exact restartFinish_inv st2 buf processId mp defaultCwd dirOk spawn now h2
  · rw [if_neg hrun]
    exact restartFinish_inv st buf processId mp defaultCwd dirOk spawn now h

theorem restartProcess_inv (st : BgProcessManagerState)
    (buf : ProcessLogBufferState Nat) (processId : Nat) (ctrl : CtrlBehavior)
    (defaultCwd : String) (dirOk : String → Bool) (spawn : SpawnOutcome)
    (now : Nat) (h : StateInv st) :
    StateInv (restartProcess st buf processId ctrl defaultCwd dirOk spawn now).2.1 := by
  unfold restartProcess
  cases hg : mapGet st.processes processId with
  | none => exact h
  | some mp => exact restartGo_inv st buf processId mp ctrl defaultCwd dirOk spawn now h

theorem stopAllLoop_foldl_inv (ctrl : Nat → CtrlBehavior) (now : Nat)
    (l : List Nat) :
    ∀ st acc, StateInv st →
      StateInv ((l.foldl (stopAllLoop ctrl now) (st, acc)).1) := by
  induction l with
  | nil => intro st acc h; exact h
  | cons x xs ih =>
      intro st acc h
      simp only [List.foldl_cons]
      exact ih _ _ (stopProcess_inv _ _ _ _ h)

theorem stopAllProcesses_inv (st : BgProcessManagerState)
    (ctrl : Nat → CtrlBehavior) (now : Nat) (h : StateInv st) :
    StateInv (stopAllProcesses st ctrl now).1 := by
  unfold stopAllProcesses
  exact stopAllLoop_foldl_inv ctrl now (runningIds st) st [] h

/-- Every reachable supervisor state satisfies the state invariant. -/
theorem reachable_stateInv (st : BgProcessManagerState) (h : Reachable st) :
    StateInv st := by
  induction h with
  | init => intro id mp h2; simp [mapGet] at h2
  | start st config dcwd dirOk spawn now hr ih =>
      exact startProcess_inv _ _ _ _ _ _ ih
  | exitEvt st processId code now hr ih => exact handleExit_inv _ _ _ _ ih
  | errorEvt st buf processId msg now hr ih => exact handleError_inv _ _ _ _ _ ih
  | stopOp st processId ctrl now hr ih => exact stopProcess_inv _ _ _ _ ih
  | restartOp st buf processId ctrl dcwd dirOk spawn now hr ih =>
      exact restartProcess_inv _ _ _ _ _ _ _ _ ih
  | stopAllOp st ctrl now hr ih => exact stopAllProcesses_inv _ _ _ ih

theorem getOrCreateBuffer_some {κ : Type} [DecidableEq κ]
    (st : ProcessLogBufferState κ) (processId : κ) (now : Nat)
    (b : LogBufferElement) (hg : mapGet st.buffers processId = some b) :
    getOrCreateBuffer st processId now = (b, st) := by
  unfold getOrCreateBuffer
  rw [hg]

theorem getOrCreateBuffer_none {κ : Type} [DecidableEq κ]
    (st : ProcessLogBufferState κ) (processId : κ) (now : Nat)
    (hg : mapGet st.buffers processId = none) :
    getOrCreateBuffer st processId now =
      (LogBufferElement.mk [] now,
       ProcessLogBufferState.mk
         (mapSet st.buffers processId (LogBufferElement.mk [] now))
         st.maxLines) := by
  unfold getOrCreateBuffer
  rw [hg]

theorem appendStream_known {κ : Type} [DecidableEq κ] (ty : LogStream)
    (st : ProcessLogBufferState κ) (processId : κ) (data : String) (now : Nat)
    (b : LogBufferElement) (hg : mapGet st.buffers processId = some b)
    (hne : parseLines data ≠ []) :
    appendStream ty st processId data now =
      ProcessLogBufferState.mk
        (mapSet st.buffers processId
          (LogBufferElement.mk
            (enforceBufferLimits st.maxLines
              (b.logs ++ (parseLines data).map (fun line => LogEntry.mk ty line now)))
            now))
        st.maxLines := by
  unfold appendStream
  rw [getOrCreateBuffer_some st processId now b hg]
  dsimp only
  rw [if_pos (List.length_pos.mpr hne)]

theorem appendStream_new {κ : Type} [DecidableEq κ] (ty : LogStream)
    (st : ProcessLogBufferState κ) (processId : κ) (data : String) (now : Nat)
    (hg : mapGet st.buffers processId = none) (hne : parseLines data ≠ []) :
    appendStream ty st processId data now =
      ProcessLogBufferState.mk
        (mapSet (mapSet st.buffers processId (LogBufferElement.mk [] now))
          processId
          (LogBufferElement.mk
            (enforceBufferLimits st.maxLines
              ((parseLines data).map (fun line => LogEntry.mk ty line now)))
            now))
        st.maxLines := by
  unfold appendStream
  rw [getOrCreateBuffer_none st processId now hg]
  dsimp only
  rw [if_pos (List.length_pos.mpr hne)]
  rw [List.nil_append]

theorem appendStream_noLines {κ : Type} [DecidableEq κ] (ty : LogStream)
    (st : ProcessLogBufferState κ) (processId : κ) (data : String) (now : Nat)
    (hno : parseLines data = []) :
    appendStream ty st processId data now =
      (getOrCreateBuffer st processId now).2 := by
  unfold appendStream
  rw [hno]
  rfl

theorem enforceBufferLimits_length (maxLines : Nat) (hm : 1 ≤ maxLines)
    (logs : List LogEntry) :
    (enforceBufferLimits maxLines logs).length ≤ maxLines := by
  unfold enforceBufferLimits
  by_cases h : logs.length > maxLines
  · rw [if_pos h]
    unfold jsSliceLast
    rw [if_neg (Nat.pos_iff_ne_zero.mp hm)]
    rw [List.length_drop]
    omega
  · rw [if_neg h]
    omega

theorem enforceBufferLimits_suffix (maxLines : Nat) (logs : List LogEntry) :
    ∃ k, enforceBufferLimits maxLines logs = logs.drop k := by
  unfold enforceBufferLimits
  by_cases h : logs.length > maxLines
  · rw [if_pos h]
    unfold jsSliceLast
    by_cases hz : maxLines = 0
    · rw [if_pos hz]
      exact ⟨0, rfl⟩
    · rw [if_neg hz]
      exact ⟨logs.length - maxLines, rfl⟩
  · rw [if_neg h]
    exact ⟨0, rfl⟩

theorem getLatestLogs_missing {κ : Type} [DecidableEq κ]
    (st : ProcessLogBufferState κ) (processId : κ) (lines : Option Nat)
    (now : Nat) (hg : mapGet st.buffers processId = none) :
    getLatestLogs st processId lines now = LogData.mk [] now := by
  unfold getLatestLogs
  rw [hg]

theorem getLatestLogs_noLimit {κ : Type} [DecidableEq κ]
    (st : ProcessLogBufferState κ) (processId : κ) (now : Nat)
    (b : LogBufferElement) (hg : mapGet st.buffers processId = some b) :
    getLatestLogs st processId none now = LogData.mk b.logs b.lastUpdated := by
  unfold getLatestLogs
  rw [hg]

theorem getLatestLogs_posLimit {κ : Type} [DecidableEq κ]
    (st : ProcessLogBufferState κ) (processId : κ) (n : Nat) (now : Nat)
    (b : LogBufferElement) (hg : mapGet st.buffers processId = some b)
    (hn : 0 < n) :
    getLatestLogs st processId (some n) now =
      LogData.mk (b.logs.drop (b.logs.length - n)) b.lastUpdated := by
  unfold getLatestLogs
  rw [hg]
  dsimp only
  rw [if_pos hn]
  unfold jsSliceLast
  rw [if_neg (Nat.pos_iff_ne_zero.mp hn)]

theorem getLatestLogs_zeroLimit {κ : Type} [DecidableEq κ]
    (st : ProcessLogBufferState κ) (processId : κ) (now : Nat)
    (b : LogBufferElement) (hg : mapGet st.buffers processId = some b) :
    getLatestLogs st processId (some 0) now = LogData.mk b.logs b.lastUpdated := by
  unfold getLatestLogs
  rw [hg]
  rfl

/-- Helper for witnesses: a singleton buffer map within the ceiling satisfies
the buffer invariant. -/
theorem bufInv_single (p : String) (e : LogBufferElement) (m : Nat)
    (he : e.logs.length ≤ m) :
    BufInv (ProcessLogBufferState.mk [(p, e)] m) := by
  intro k b hb
  simp only [mapGet] at hb
  by_cases h : p = k
  · rw [if_pos h] at hb
    injection hb with hb
    subst hb
    exact he
  · rw [if_neg h] at hb
    cases hb

theorem updateProcessStatus_some (st : BgProcessManagerState) (processId : Nat)
    (status : ProcessStatus) (exitCode : Option Int) (now : Nat)
    (mp : ManagedProcess) (hg : mapGet st.processes processId = some mp) :
    updateProcessStatus st processId status exitCode now =
      BgProcessManagerState.mk
        (mapSet st.processes processId
          (ManagedProcess.mk mp.id mp.pid mp.command mp.args mp.cwd status
            mp.startTime
            (if status = ProcessStatus.running then none else some now)
            exitCode))
        st.nextId := by
  unfold updateProcessStatus
  rw [hg]

theorem stopProcess_ok_state (st : BgProcessManagerState) (processId : Nat)
    (ctrl : CtrlBehavior) (now : Nat) :
    (stopProcess st processId ctrl now).1 = Except.ok () →
    (stopProcess st processId ctrl now).2.1 = st := by
  unfold stopProcess stopCatch
  repeat' first
    | (intro h; rfl)
    | (intro h; exact Except.noConfusion h)
    | split

theorem startProcess_ok (st : BgProcessManagerState) (config : StartConfig)
    (defaultCwd : String) (dirOk : String → Bool) (pid : Nat) (now : Nat)
    (hdir : dirOk (config.cwd.getD defaultCwd) = true) :
    startProcess st config defaultCwd dirOk (SpawnOutcome.ok pid) now =
      (Except.ok (ManagedProcess.mk st.nextId pid config.command
         (config.args.getD []) (config.cwd.getD defaultCwd)
         ProcessStatus.running now none none),
       BgProcessManagerState.mk
         (mapSet st.processes st.nextId
           (ManagedProcess.mk st.nextId pid config.command
             (config.args.getD []) (config.cwd.getD defaultCwd)
             ProcessStatus.running now none none))
         (st.nextId + 1),
       true) := by
  unfold startProcess
  rw [if_neg (by simp [hdir])]

theorem restartFinish_ok (st2 : BgProcessManagerState)
    (buf : ProcessLogBufferState Nat) (processId : Nat) (mp : ManagedProcess)
    (defaultCwd : String) (dirOk : String → Bool) (pid : Nat) (now : Nat)
    (hdir : dirOk mp.cwd = true) :
    restartFinish st2 buf processId mp defaultCwd dirOk (SpawnOutcome.ok pid) now =
      (Except.ok st2.nextId,
       BgProcessManagerState.mk
         (mapSet (mapDelete st2.processes processId) st2.nextId
           (ManagedProcess.mk st2.nextId pid mp.command mp.args mp.cwd
             ProcessStatus.running now none none))
         (st2.nextId + 1),
       clearLogs buf processId) := by
  unfold restartFinish
  rw [startProcess_ok
    { st2 with processes := mapDelete st2.processes processId }
    { command := mp.command, args := some mp.args, cwd := some mp.cwd }
    defaultCwd dirOk pid now hdir]
  rfl

theorem stopAllLoop_foldl_ids (ctrl : Nat → CtrlBehavior) (now : Nat)
    (l : List Nat) :
    ∀ st acc, ((l.foldl (stopAllLoop ctrl now) (st, acc)).2).map Prod.fst =
      acc.map Prod.fst ++ l := by
  induction l with
  | nil => intro st acc; simp
  | cons x xs ih =>
      intro st acc
      simp only [List.foldl_cons]
      rw [show stopAllLoop ctrl now (st, acc) x =
        ((stopProcess st x (ctrl x) now).2.1,
         acc ++ [(x, (stopProcess st x (ctrl x) now).1.toBool)]) from rfl]
      rw [ih]
      simp

/-- C1: counterexample to the claim as stated.  After a single one-line
append with ceiling 1000, a read with limit 0 returns the full retained
sequence of one entry, not min(0, length) = 0 entries: the guard in
getLatestLogs only applies a limit when it is strictly positive. -/
theorem C1_counterexample :
    ¬ ((getLatestLogs (appendStdout (ProcessLogBufferState.mk [] 1000) "p"
          "hello\n" 0) "p" (some 0) 9).logs.length =
        min 0 (getLatestLogs (appendStdout (ProcessLogBufferState.mk [] 1000)
          "p" "hello\n" 0) "p" none 9).logs.length) := by
  decide

/-- C1 (amended): with a ceiling of at least 1, every append keeps every
buffer at or below the ceiling, and the retained entries after an append are
a suffix of the previously retained entries followed by the appended ones
(oldest dropped first, chronological order preserved); read with no limit
returns the full retained sequence, read with a positive limit n returns
exactly the most recent min(n, length) entries in original order, and read
with limit 0 behaves like no limit and returns the full retained sequence
rather than 0 entries. -/
theorem C1_buffer_ceiling_and_read (st : ProcessLogBufferState String)
    (ty : LogStream) (processId data : String) (now : Nat)
    (hm : 1 ≤ st.maxLines) (hinv : BufInv st) :
    (BufInv (appendStream ty st processId data now) ∧
     ∀ b2, mapGet (appendStream ty st processId data now).buffers processId =
         some b2 →
       ∃ k, b2.logs = (oldLogs st processId ++ (parseLines data).map
         (fun line => LogEntry.mk ty line now)).drop k) ∧
    (∀ b, mapGet st.buffers processId = some b →
      (getLatestLogs st processId none now).logs = b.logs ∧
      (∀ n, 0 < n →
        (getLatestLogs st processId (some n) now).logs =
          b.logs.drop (b.logs.length - n) ∧
        (getLatestLogs st processId (some n) now).logs.length =
          min n b.logs.length) ∧
      (getLatestLogs st processId (some 0) now).logs = b.logs) := by
  refine ⟨⟨?_, ?_⟩, ?_⟩
  · by_cases hno : parseLines data = []
    · rw [appendStream_noLines ty st processId data now hno]
      cases hb : mapGet st.buffers processId with
      | some b =>
          rw [getOrCreateBuffer_some st processId now b hb]
          exact hinv
      | none =>
          rw [getOrCreateBuffer_none st processId now hb]
          intro k b2 h2
          have h2a : mapGet (mapSet st.buffers processId
              (LogBufferElement.mk [] now)) k = some b2 := h2
          rw [mapGet_mapSet] at h2a
          by_cases hk : processId = k
          · rw [if_pos hk] at h2a
            injection h2a with h2a
            subst h2a
            exact Nat.zero_le _
          · rw [if_neg hk] at h2a
            exact hinv k b2 h2a
    · cases hb : mapGet st.buffers processId with
      | some b =>
          rw [appendStream_known ty st processId data now b hb hno]
          intro k b2 h2
          have h2a : mapGet (mapSet st.buffers processId
              (LogBufferElement.mk
                (enforceBufferLimits st.maxLines
                  (b.logs ++ (parseLines data).map
                    (fun line => LogEntry.mk ty line now))) now)) k =
              some b2 := h2
          rw [mapGet_mapSet] at h2a
          by_cases hk : processId = k
          · rw [if_pos hk] at h2a
            injection h2a with h2a
            subst h2a
            exact enforceBufferLimits_length st.maxLines hm _
          · rw [if_neg hk] at h2a
            exact hinv k b2 h2a
      | none =>
          rw [appendStream_new ty st processId data now hb hno]
          intro k b2 h2
          have h2a : mapGet (mapSet (mapSet st.buffers processId
              (LogBufferElement.mk [] now)) processId
              (LogBufferElement.mk
                (enforceBufferLimits st.maxLines
                  ((parseLines data).map
                    (fun line => LogEntry.mk ty line now))) now)) k =
              some b2 := h2
          rw [mapGet_mapSet] at h2a
          by_cases hk : processId = k
          · rw [if_pos hk] at h2a
            injection h2a with h2a
            subst h2a
            exact enforceBufferLimits_length st.maxLines hm _
          · rw [if_neg hk, mapGet_mapSet, if_neg hk] at h2a
            exact hinv k b2 h2a
  · by_cases hno : parseLines data = []
    · rw [appendStream_noLines ty st processId data now hno, hno]
      cases hb : mapGet st.buffers processId with
      | some b =>
          rw [getOrCreateBuffer_some st processId now b hb]
          intro b2 h2
          rw [hb] at h2
          injection h2 with h2
          subst h2
          refine ⟨0, ?_⟩
          unfold oldLogs
          rw [hb]
          simp
      | none =>
          rw [getOrCreateBuffer_none st processId now hb]
          intro b2 h2
          have h2a : mapGet (mapSet st.buffers processId
              (LogBufferElement.mk [] now)) processId = some b2 := h2
          rw [mapGet_mapSet, if_pos rfl] at h2a
          injection h2a with h2a
          subst h2a
          refine ⟨0, ?_⟩
          unfold oldLogs
          rw [hb]
          simp
    · cases hb : mapGet st.buffers processId with
      | some b =>
          rw [appendStream_known ty st processId data now b hb hno]
          intro b2 h2
          have h2a : mapGet (mapSet st.buffers processId
              (LogBufferElement.mk
                (enforceBufferLimits st.maxLines
                  (b.logs ++ (parseLines data).map
                    (fun line => LogEntry.mk ty line now))) now)) processId =
              some b2 := h2
          rw [mapGet_mapSet, if_pos rfl] at h2a
          injection h2a with h2a
          subst h2a
          obtain ⟨k, hk⟩ := enforceBufferLimits_suffix st.maxLines
            (b.logs ++ (parseLines data).map (fun line => LogEntry.mk ty line now))
          refine ⟨k, ?_⟩
          unfold oldLogs
          rw [hb]
          exact hk
      | none =>
          rw [appendStream_new ty st processId data now hb hno]
          intro b2 h2
          have h2a : mapGet (mapSet (mapSet st.buffers processId
              (LogBufferElement.mk [] now)) processId
              (LogBufferElement.mk
                (enforceBufferLimits st.maxLines
                  ((parseLines data).map
                    (fun line => LogEntry.mk ty line now))) now)) processId =
              some b2 := h2
          rw [mapGet_mapSet, if_pos rfl] at h2a
          injection h2a with h2a
          subst h2a
          obtain ⟨k, hk⟩ := enforceBufferLimits_suffix st.maxLines
            ((parseLines data).map (fun line => LogEntry.mk ty line now))
          refine ⟨k, ?_⟩
          unfold oldLogs
          rw [hb]
          simpa using hk
  · intro b hb
    refine ⟨?_, ?_, ?_⟩
    · rw [getLatestLogs_noLimit st processId now b hb]
    · intro n hn
      rw [getLatestLogs_posLimit st processId n now b hb hn]
      refine ⟨rfl, ?_⟩
      show (b.logs.drop (b.logs.length - n)).length = min n b.logs.length
      rw [List.length_drop]
      omega
    · rw [getLatestLogs_zeroLimit st processId now b hb]

/-- C1 witness: the amended theorem applied to the concrete one-entry demo
buffer with ceiling 3: a limit of 5 returns the whole single entry, a limit
of 0 returns the full sequence, and an append keeps the invariant. -/
theorem C1_buffer_ceiling_and_read_witness :
    ((getLatestLogs demoBuf "p" (some 5) 1).logs =
      (LogBufferElement.mk [demoEntry] 0).logs.drop
        ((LogBufferElement.mk [demoEntry] 0).logs.length - 5)) ∧
    (getLatestLogs demoBuf "p" (some 0) 1).logs =
      (LogBufferElement.mk [demoEntry] 0).logs ∧
    BufInv (appendStream LogStream.stdout demoBuf "p" "x\n" 1) := by
  have h := C1_buffer_ceiling_and_read demoBuf LogStream.stdout "p" "x\n" 1
    (by decide) (bufInv_single "p" (LogBufferElement.mk [demoEntry] 0) 3 (by decide))
  have hb : mapGet demoBuf.buffers "p" = some (LogBufferElement.mk [demoEntry] 0) := rfl
  exact ⟨(h.2 _ hb).2.1 5 (by decide) |>.1, (h.2 _ hb).2.2, h.1.1⟩

/-- C3: counterexample to the claim as stated.  A chunk consisting only of
the incomplete trailing fragment abc (no newline at all) is turned into a
buffered entry in the same call: the fragment is not lost. -/
theorem C3_counterexample :
    (getLatestLogs (appendStdout (ProcessLogBufferState.mk [] 10) "p" "abc" 0)
      "p" none 9).logs = [LogEntry.mk LogStream.stdout "abc" 0] := by
  decide

/-- C3 (amended): every appendStdout call splits the chunk on line
boundaries, discards empty lines, and turns each remaining segment,
including an incomplete trailing fragment, into exactly one entry tagged
with the stream and the current time; nothing is carried over to the next
call.  The concrete conjuncts show the trailing fragment becoming its own
entry, empty lines being discarded, and two consecutive fragment-only
appends yielding two separate entries rather than a reassembled line. -/
theorem C3_split_discard_and_fragment :
    (∀ (st : ProcessLogBufferState String) (processId data : String)
       (now : Nat) (b : LogBufferElement),
       mapGet st.buffers processId = some b → parseLines data ≠ [] →
       mapGet (appendStdout st processId data now).buffers processId =
         some (LogBufferElement.mk
           (enforceBufferLimits st.maxLines
             (b.logs ++ (parseLines data).map
               (fun line => LogEntry.mk LogStream.stdout line now))) now)) ∧
    parseLines "Line A\npartial" = ["Line A", "partial"] ∧
    parseLines "a\n\nb\n" = ["a", "b"] ∧
    mapGet (appendStdout (appendStdout (ProcessLogBufferState.mk [] 10) "p"
        "ab" 1) "p" "cd" 2).buffers "p" =
      some (LogBufferElement.mk
        [LogEntry.mk LogStream.stdout "ab" 1,
         LogEntry.mk LogStream.stdout "cd" 2] 2) := by
  refine ⟨?_, by decide, by decide, by decide⟩
  intro st processId data now b hb hno
  unfold appendStdout
  rw [appendStream_known LogStream.stdout st processId data now b hb hno]
  show mapGet (mapSet st.buffers processId _) processId = _
  rw [mapGet_mapSet, if_pos rfl]

/-- C3 witness: the amended theorem applied to the demo buffer and the
fragment-terminated chunk x newline: the buffer gains one stdout entry. -/
theorem C3_split_discard_and_fragment_witness :
    mapGet (appendStdout demoBuf "p" "x\n" 4).buffers "p" =
      some (LogBufferElement.mk [demoEntry, LogEntry.mk LogStream.stdout "x" 4] 4) := by
  have h := C3_split_discard_and_fragment.1 demoBuf "p" "x\n" 4
    (LogBufferElement.mk [demoEntry] 0) rfl (by decide)
  rw [h]
  decide

/-- C2: counterexample to idempotence.  The state demoTerm holds a terminal
record (stopped, exit code 0, endTime 6); a second exit notification with a
null code at tick 7 overwrites it (status error, exitCode absent, endTime 7),
so a second notification on an already-terminal record is not a no-op. -/
theorem C2_counterexample :
    mapGet (handleExit demoTerm 0 none 7).processes 0 ≠
      mapGet demoTerm.processes 0 ∧
    mapGet demoTerm.processes 0 = some demoTermRecord := by
  decide

/-- C2 (amended): the exit and error handlers only ever assign the terminal
statuses (never running) and leave every other record untouched, but they
are not idempotent: a notification on a record whose status is already
terminal overwrites the record, recomputing status, exitCode and endTime by
the same rule as the first notification. -/
theorem C2_handlers_terminal_overwrite (st : BgProcessManagerState)
    (buf : ProcessLogBufferState Nat) (processId : Nat) (code : Option Int)
    (msg : String) (now : Nat) (mp : ManagedProcess)
    (hg : mapGet st.processes processId = some mp) :
    (mapGet (handleExit st processId code now).processes processId =
      some (ManagedProcess.mk mp.id mp.pid mp.command mp.args mp.cwd
        (if code = some 0 then ProcessStatus.stopped else ProcessStatus.error)
        mp.startTime (some now) code) ∧
     (if code = some 0 then ProcessStatus.stopped else ProcessStatus.error) ≠
       ProcessStatus.running ∧
     ∀ j, j ≠ processId →
       mapGet (handleExit st processId code now).processes j =
         mapGet st.processes j) ∧
    (mapGet ((handleError st buf processId msg now).1).processes processId =
      some (ManagedProcess.mk mp.id mp.pid mp.command mp.args mp.cwd
        ProcessStatus.error mp.startTime (some now) none) ∧
     ∀ j, j ≠ processId →
       mapGet ((handleError st buf processId msg now).1).processes j =
         mapGet st.processes j) := by
  have hS : (if code = some 0 then ProcessStatus.stopped else ProcessStatus.error) ≠
      ProcessStatus.running := by
    by_cases hc : code = some 0
    · rw [if_pos hc]
      exact fun h => ProcessStatus.noConfusion h
    · rw [if_neg hc]
      exact fun h => ProcessStatus.noConfusion h
  have hx : handleExit st processId code now =
      BgProcessManagerState.mk
        (mapSet st.processes processId
          (ManagedProcess.mk mp.id mp.pid mp.command mp.args mp.cwd
            (if code = some 0 then ProcessStatus.stopped else ProcessStatus.error)
            mp.startTime (some now) code))
        st.nextId := by
    unfold handleExit
    rw [updateProcessStatus_some st processId _ code now mp hg]
    rw [if_neg hS]
  have hy : (handleError st buf processId msg now).1 =
      BgProcessManagerState.mk
        (mapSet st.processes processId
          (ManagedProcess.mk mp.id mp.pid mp.command mp.args mp.cwd
            ProcessStatus.error mp.startTime (some now) none))
        st.nextId := by
    show updateProcessStatus st processId ProcessStatus.error none now = _
    rw [updateProcessStatus_some st processId ProcessStatus.error none now mp hg]
    rw [if_neg (fun h => ProcessStatus.noConfusion h)]
  refine ⟨⟨?_, hS, ?_⟩, ⟨?_, ?_⟩⟩
  · rw [hx]
    show mapGet (mapSet st.processes processId _) processId = _
    rw [mapGet_mapSet, if_pos rfl]
  · intro j hj
    rw [hx]
    show mapGet (mapSet st.processes processId _) j = _
    rw [mapGet_mapSet, if_neg (fun h => hj h.symm)]
  · rw [hy]
    show mapGet (mapSet st.processes processId _) processId = _
    rw [mapGet_mapSet, if_pos rfl]
  · intro j hj
    rw [hy]
    show mapGet (mapSet st.processes processId _) j = _
    rw [mapGet_mapSet, if_neg (fun h => hj h.symm)]

/-- C2 witness: the amended theorem applied to the concrete started
supervisor: the exit notification with code 0 leaves the stopped record with
exit code 0 and endTime 6 under id 0. -/
theorem C2_handlers_terminal_overwrite_witness :
    mapGet (handleExit demoStart 0 (some 0) 6).processes 0 =
      some (ManagedProcess.mk demoRecord.id demoRecord.pid demoRecord.command
        demoRecord.args demoRecord.cwd
        (if (some 0 : Option Int) = some 0 then ProcessStatus.stopped
         else ProcessStatus.error)
        demoRecord.startTime (some 6) (some 0)) := by
  exact (C2_handlers_terminal_overwrite demoStart
    (ProcessLogBufferState.mk [] 5) 0 (some 0) "m" 6 demoRecord (by decide)).1.1

/-- C4: counterexample.  After a handle-level error event the record under
id 0 is terminal with endTime set but exitCode absent: the presence of
exitCode is not equivalent to a non-running status. -/
theorem C4_counterexample :
    mapGet ((handleError demoStart (ProcessLogBufferState.mk [] 5) 0 "boom"
        7).1).processes 0 =
      some (ManagedProcess.mk 0 42 "node" ["server.js"] "/srv"
        ProcessStatus.error 5 (some 7) none) ∧
    ProcessStatus.error ≠ ProcessStatus.running := by
  decide

/-- C4 (amended): in every reachable supervisor state, endTime presence is
equivalent to a non-running status, a running record also has no exitCode,
and a stopped record always carries exit code 0; an error record may lack an
exitCode (handle-level error events, null exit codes and termination
failures record none). -/
theorem C4_endTime_exitCode_invariant (st : BgProcessManagerState)
    (h : Reachable st) (id : Nat) (mp : ManagedProcess)
    (hg : mapGet st.processes id = some mp) :
    (mp.endTime = none ↔ mp.status = ProcessStatus.running) ∧
    (mp.status = ProcessStatus.running → mp.exitCode = none) ∧
    (mp.status = ProcessStatus.stopped → mp.exitCode = some 0) := by
  obtain ⟨-, -, hrec⟩ := reachable_stateInv st h id mp hg
  exact ⟨hrec.1.symm, hrec.2.1, hrec.2.2⟩

/-- C4 witness: the invariant holds for the freshly started record of the
concrete reachable state demoStart. -/
theorem C4_endTime_exitCode_invariant_witness :
    (demoRecord.endTime = none ↔ demoRecord.status = ProcessStatus.running) ∧
    (demoRecord.status = ProcessStatus.running → demoRecord.exitCode = none) ∧
    (demoRecord.status = ProcessStatus.stopped → demoRecord.exitCode = some 0) := by
  exact C4_endTime_exitCode_invariant demoStart
    (Reachable.start { processes := [], nextId := 0 } demoConfig "/"
      (fun _ => true) (SpawnOutcome.ok 42) 5 Reachable.init)
    0 demoRecord (by decide)

/-- C10: an exit or error lifecycle event delivered for an id with no record
is a silent no-op: the supervisor state, record map included, is returned
unchanged, no record is created and no error is raised; the same holds for a
direct status update. -/
theorem C10_unknown_id_event_noop (st : BgProcessManagerState)
    (buf : ProcessLogBufferState Nat) (processId : Nat) (code : Option Int)
    (status : ProcessStatus) (exitCode : Option Int) (msg : String) (now : Nat)
    (hg : mapGet st.processes processId = none) :
    handleExit st processId code now = st ∧
    (handleError st buf processId msg now).1 = st ∧
    updateProcessStatus st processId status exitCode now = st := by
  have hupd : ∀ s e, updateProcessStatus st processId s e now = st := by
    intro s e
    unfold updateProcessStatus
    rw [hg]
  exact ⟨hupd _ _, hupd _ _, hupd _ _⟩

/-- C10 witness: an exit notification for the unknown id 99 leaves the
concrete started supervisor exactly unchanged. -/
theorem C10_unknown_id_event_noop_witness :
    handleExit demoStart 99 (some 0) 8 = demoStart := by
  exact (C10_unknown_id_event_noop demoStart (ProcessLogBufferState.mk [] 5)
    99 (some 0) ProcessStatus.error none "m" 8 (by decide)).1

/-- C6: a start whose resolved cwd fails validation fails with
DIRECTORY_NOT_FOUND without attempting the spawn and leaves the state fully
unchanged; a start whose spawn fails reports SPAWN_FAILED carrying the
underlying message and leaves the record map unchanged. -/
theorem C6_start_failure_modes (st : BgProcessManagerState)
    (config : StartConfig) (defaultCwd : String) (dirOk : String → Bool)
    (spawn : SpawnOutcome) (msg : String) (now : Nat) :
    (dirOk (config.cwd.getD defaultCwd) = false →
      startProcess st config defaultCwd dirOk spawn now =
        (Except.error (ProcessError.mk ErrorType.DIRECTORY_NOT_FOUND
          ("Directory not found: " ++ config.cwd.getD defaultCwd) none),
         st, false)) ∧
    (dirOk (config.cwd.getD defaultCwd) = true →
      (startProcess st config defaultCwd dirOk (SpawnOutcome.err msg) now).1 =
        Except.error (ProcessError.mk ErrorType.SPAWN_FAILED
          ("Failed to spawn process: " ++ msg) none) ∧
      ((startProcess st config defaultCwd dirOk (SpawnOutcome.err msg)
          now).2.1).processes = st.processes ∧
      (startProcess st config defaultCwd dirOk (SpawnOutcome.err msg)
          now).2.2 = true) := by
  constructor
  · intro hdir
    unfold startProcess
    rw [if_pos hdir]
  · intro hdir
    unfold startProcess
    rw [if_neg (by simp [hdir])]
    exact ⟨rfl, rfl, rfl⟩

/-- C6 witness: starting on the concrete supervisor with a failing directory
check fails with DIRECTORY_NOT_FOUND, does not reach the spawn, and leaves
the state unchanged. -/
theorem C6_start_failure_modes_witness :
    startProcess demoStart demoConfig "/" (fun _ => false) (SpawnOutcome.ok 7) 9 =
      (Except.error (ProcessError.mk ErrorType.DIRECTORY_NOT_FOUND
        ("Directory not found: " ++ demoConfig.cwd.getD "/") none),
       demoStart, false) := by
  exact (C6_start_failure_modes demoStart demoConfig "/" (fun _ => false)
    (SpawnOutcome.ok 7) "m" 9).1 rfl

/-- C8: stop on an unknown id fails with PROCESS_NOT_FOUND and changes
nothing; restart on an unknown id fails with PROCESS_NOT_FOUND and changes
nothing; stop on a record that is not running is a success no-op that sends
no signal and leaves the state unchanged. -/
theorem C8_notfound_and_stop_noop (st : BgProcessManagerState)
    (buf : ProcessLogBufferState Nat) (processId : Nat) (ctrl : CtrlBehavior)
    (defaultCwd : String) (dirOk : String → Bool) (spawn : SpawnOutcome)
    (now : Nat) :
    (mapGet st.processes processId = none →
      stopProcess st processId ctrl now =
        (Except.error (ProcessError.mk ErrorType.PROCESS_NOT_FOUND
          ("Process not found: " ++ toString processId) none), st, []) ∧
      restartProcess st buf processId ctrl defaultCwd dirOk spawn now =
        (Except.error (ProcessError.mk ErrorType.PROCESS_NOT_FOUND
          ("Process not found: " ++ toString processId) none), st, buf)) ∧
    (∀ mp, mapGet st.processes processId = some mp →
      mp.status ≠ ProcessStatus.running →
      stopProcess st processId ctrl now = (Except.ok (), st, [])) := by
  constructor
  · intro hg
    constructor
    · unfold stopProcess
      rw [hg]
    · unfold restartProcess
      rw [hg]
  · intro mp hg hs
    unfold stopProcess
    rw [hg]
    dsimp only
    rw [if_pos hs]

/-- C8 witness: on the concrete terminal supervisor, stop of the unknown id
99 fails with PROCESS_NOT_FOUND and stop of the already-stopped id 0
succeeds while sending no signal and changing nothing. -/
theorem C8_notfound_and_stop_noop_witness :
    stopProcess demoTerm 99 demoCtrl 8 =
      (Except.error (ProcessError.mk ErrorType.PROCESS_NOT_FOUND
        ("Process not found: " ++ toString (99 : Nat)) none), demoTerm, []) ∧
    stopProcess demoTerm 0 demoCtrl 8 = (Except.ok (), demoTerm, []) := by
  constructor
  · exact ((C8_notfound_and_stop_noop demoTerm (ProcessLogBufferState.mk [] 5)
      99 demoCtrl "/" (fun _ => true) (SpawnOutcome.ok 7) 8).1 (by decide)).1
  · exact (C8_notfound_and_stop_noop demoTerm (ProcessLogBufferState.mk [] 5)
      0 demoCtrl "/" (fun _ => true) (SpawnOutcome.ok 7) 8).2
      demoTermRecord (by decide) (by decide)

/-- C5: stopping a running record sends the non-forceful signal first,
escalates to the forceful signal exactly when the non-forceful signal
reports non-delivery, waits for exit after the signal phase on every
non-throwing signal path, and on any throw from the signal/wait sequence
marks the record error and fails with TERMINATION_FAILED carrying the
process id; a stop that returns success leaves the state unchanged. -/
theorem C5_stop_escalation (st : BgProcessManagerState) (processId : Nat)
    (ctrl : CtrlBehavior) (now : Nat) (mp : ManagedProcess)
    (hg : mapGet st.processes processId = some mp)
    (hrun : mp.status = ProcessStatus.running) :
    ((stopProcess st processId ctrl now).2.2.head? =
      some (CtrlCall.kill mp.pid false)) ∧
    (ctrl.killTerm = CtrlRes.ok true →
      CtrlCall.kill mp.pid true ∉ (stopProcess st processId ctrl now).2.2) ∧
    (ctrl.killTerm = CtrlRes.ok false →
      (stopProcess st processId ctrl now).2.2.take 2 =
        [CtrlCall.kill mp.pid false, CtrlCall.kill mp.pid true]) ∧
    (ctrl.killTerm = CtrlRes.ok true →
      (stopProcess st processId ctrl now).2.2.getLast? =
        some (CtrlCall.waitForExit mp.pid)) ∧
    (∀ b b2, ctrl.killTerm = CtrlRes.ok b → ctrl.killForce = CtrlRes.ok b2 →
      (stopProcess st processId ctrl now).2.2.getLast? =
        some (CtrlCall.waitForExit mp.pid)) ∧
    (∀ e, (stopProcess st processId ctrl now).1 = Except.error e →
      e.type = ErrorType.TERMINATION_FAILED ∧ e.processId = some processId ∧
      mapGet ((stopProcess st processId ctrl now).2.1).processes processId =
        some (ManagedProcess.mk mp.id mp.pid mp.command mp.args mp.cwd
          ProcessStatus.error mp.startTime (some now) none)) ∧
    ((stopProcess st processId ctrl now).1 = Except.ok () →
      (stopProcess st processId ctrl now).2.1 = st) := by
  obtain ⟨kt, kf, we⟩ := ctrl
  have hne : ¬ (mp.status ≠ ProcessStatus.running) := not_not_intro hrun
  have herr : mapGet (updateProcessStatus st processId ProcessStatus.error
      none now).processes processId =
      some (ManagedProcess.mk mp.id mp.pid mp.command mp.args mp.cwd
        ProcessStatus.error mp.startTime (some now) none) := by
    rw [updateProcessStatus_some st processId ProcessStatus.error none now mp hg]
    show mapGet (mapSet st.processes processId _) processId = _
    rw [mapGet_mapSet, if_pos rfl]
    rfl
  cases kt with
  | threw msg =>
      have hR : stopProcess st processId
          (CtrlBehavior.mk (CtrlRes.threw msg) kf we) now =
          (Except.error (ProcessError.mk ErrorType.TERMINATION_FAILED
            ("Failed to stop process: " ++ msg) (some processId)),
           updateProcessStatus st processId ProcessStatus.error none now,
           [CtrlCall.kill mp.pid false]) := by
        unfold stopProcess stopCatch
        rw [hg]
        dsimp only
        rw [if_neg hne]
      rw [hR]
      refine ⟨rfl, ?_, ?_, ?_, ?_, ?_, ?_⟩
      · intro h
        exact CtrlRes.noConfusion h
      · intro h
        exact CtrlRes.noConfusion h
      · intro h
        exact CtrlRes.noConfusion h
      · intro b b2 h1 h2
        exact CtrlRes.noConfusion h1
      · intro e he
        injection he with he
        subst he
        exact ⟨rfl, rfl, herr⟩
      · intro h
        exact Except.noConfusion h
  | ok killed =>
      cases killed with
      | true =>
          cases we with
          | ok u =>
              have hR : stopProcess st processId
                  (CtrlBehavior.mk (CtrlRes.ok true) kf (CtrlRes.ok u)) now =
                  (Except.ok (), st,
                   [CtrlCall.kill mp.pid false, CtrlCall.waitForExit mp.pid]) := by
                unfold stopProcess
                rw [hg]
                dsimp only
                rw [if_neg hne]
                rfl
              rw [hR]
              refine ⟨rfl, ?_, ?_, ?_, ?_, ?_, ?_⟩
              · intro h
                simp
              · intro h
                injection h with h
                exact Bool.noConfusion h
              · intro h
                rfl
              · intro b b2 h1 h2
                rfl
              · intro e he
                exact Except.noConfusion he
              · intro h
                rfl
          | threw m =>
              have hR : stopProcess st processId
                  (CtrlBehavior.mk (CtrlRes.ok true) kf (CtrlRes.threw m)) now =
                  (Except.error (ProcessError.mk ErrorType.TERMINATION_FAILED
                    ("Failed to stop process: " ++ m) (some processId)),
                   updateProcessStatus st processId ProcessStatus.error none now,
                   [CtrlCall.kill mp.pid false, CtrlCall.waitForExit mp.pid]) := by
                unfold stopProcess stopCatch
                rw [hg]
                dsimp only
                rw [if_neg hne]
                rfl
              rw [hR]
              refine ⟨rfl, ?_, ?_, ?_, ?_, ?_, ?_⟩
              · intro h
                simp
              · intro h
                injection h with h
                exact Bool.noConfusion h
              · intro h
                rfl
              · intro b b2 h1 h2
                rfl
              · intro e he
                injection he with he
                subst he
                exact ⟨rfl, rfl, herr⟩
              · intro h
                exact Except.noConfusion h
      | false =>
          cases kf with
          | threw m =>
              have hR : stopProcess st processId
                  (CtrlBehavior.mk (CtrlRes.ok false) (CtrlRes.threw m) we) now =
                  (Except.error (ProcessError.mk ErrorType.TERMINATION_FAILED
                    ("Failed to stop process: " ++ m) (some processId)),
                   updateProcessStatus st processId ProcessStatus.error none now,
                   [CtrlCall.kill mp.pid false, CtrlCall.kill mp.pid true]) := by
                unfold stopProcess stopCatch
                rw [hg]
                dsimp only
                rw [if_neg hne]
                rfl
              rw [hR]
              refine ⟨rfl, ?_, ?_, ?_, ?_, ?_, ?_⟩
              · intro h
                injection h with h
                exact Bool.noConfusion h
              · intro h
                rfl
              · intro h
                injection h with h
                exact Bool.noConfusion h
              · intro b b2 h1 h2
                exact CtrlRes.noConfusion h2
              · intro e he
                injection he with he
                subst he
                exact ⟨rfl, rfl, herr⟩
              · intro h
                exact Except.noConfusion h
          | ok b2 =>
              cases we with
              | ok u =>
                  have hR : stopProcess st processId
                      (CtrlBehavior.mk (CtrlRes.ok false) (CtrlRes.ok b2)
                        (CtrlRes.ok u)) now =
                      (Except.ok (), st,
                       [CtrlCall.kill mp.pid false, CtrlCall.kill mp.pid true,
                        CtrlCall.waitForExit mp.pid]) := by
                    unfold stopProcess
                    rw [hg]
                    dsimp only
                    rw [if_neg hne]
                    rfl
                  rw [hR]
                  refine ⟨rfl, ?_, ?_, ?_, ?_, ?_, ?_⟩
                  · intro h
                    injection h with h
                    exact Bool.noConfusion h
                  · intro h
                    rfl
                  · intro h
                    injection h with h
                    exact Bool.noConfusion h
                  · intro b b3 h1 h2
                    rfl
                  · intro e he
                    exact Except.noConfusion he
                  · intro h
                    rfl
              | threw m =>
                  have hR : stopProcess st processId
                      (CtrlBehavior.mk (CtrlRes.ok false) (CtrlRes.ok b2)
                        (CtrlRes.threw m)) now =
                      (Except.error (ProcessError.mk ErrorType.TERMINATION_FAILED
                        ("Failed to stop process: " ++ m) (some processId)),
                       updateProcessStatus st processId ProcessStatus.error none now,
                       [CtrlCall.kill mp.pid false, CtrlCall.kill mp.pid true,
                        CtrlCall.waitForExit mp.pid]) := by
                    unfold stopProcess stopCatch
                    rw [hg]
                    dsimp only
                    rw [if_neg hne]
                    rfl
                  rw [hR]
                  refine ⟨rfl, ?_, ?_, ?_, ?_, ?_, ?_⟩
                  · intro h
                    injection h with h
                    exact Bool.noConfusion h
                  · intro h
                    rfl
                  · intro h
                    injection h with h
                    exact Bool.noConfusion h
                  · intro b b3 h1 h2
                    rfl
                  · intro e he
                    injection he with he
                    subst he
                    exact ⟨rfl, rfl, herr⟩
                  · intro h
                    exact Except.noConfusion h

/-- C5 witness: stopping the running record of the concrete started
supervisor with a well-behaved controller sends the non-forceful kill first
and never the forceful one. -/
theorem C5_stop_escalation_witness :
    (stopProcess demoStart 0 demoCtrl 8).2.2.head? =
      some (CtrlCall.kill demoRecord.pid false) ∧
    CtrlCall.kill demoRecord.pid true ∉ (stopProcess demoStart 0 demoCtrl 8).2.2 := by
  have h := C5_stop_escalation demoStart 0 demoCtrl 8 demoRecord
    (by decide) (by decide)
  exact ⟨h.1, h.2.1 rfl⟩

/-- C7: restarting an existing record (with a passing directory check, a
successful spawn, and a stop step that succeeds when the record is still
running) removes the old record, clears its log buffer, and starts a new
process with the captured command, args and cwd; the returned new id is the
fresh-counter value, which differs from the old id and from every id in the
map; and on any state in which an id has no record, stop and restart on that
id fail with PROCESS_NOT_FOUND while getInfo and getLogs report absence. -/
theorem C7_restart_fresh_id (st : BgProcessManagerState)
    (buf : ProcessLogBufferState Nat) (oldId : Nat) (ctrl : CtrlBehavior)
    (defaultCwd : String) (dirOk : String → Bool) (pid : Nat) (now : Nat)
    (mp : ManagedProcess) (hreach : Reachable st)
    (hg : mapGet st.processes oldId = some mp)
    (hdir : dirOk mp.cwd = true)
    (hstop : mp.status = ProcessStatus.running →
      (stopProcess st oldId ctrl now).1 = Except.ok ()) :
    (restartProcess st buf oldId ctrl defaultCwd dirOk (SpawnOutcome.ok pid) now =
      (Except.ok st.nextId,
       BgProcessManagerState.mk
         (mapSet (mapDelete st.processes oldId) st.nextId
           (ManagedProcess.mk st.nextId pid mp.command mp.args mp.cwd
             ProcessStatus.running now none none))
         (st.nextId + 1),
       clearLogs buf oldId)) ∧
    st.nextId ≠ oldId ∧
    (∀ i mpi, mapGet st.processes i = some mpi → st.nextId ≠ i) ∧
    mapGet (mapSet (mapDelete st.processes oldId) st.nextId
      (ManagedProcess.mk st.nextId pid mp.command mp.args mp.cwd
        ProcessStatus.running now none none)) oldId = none ∧
    mapGet (clearLogs buf oldId).buffers oldId = none ∧
    (∀ (st2 : BgProcessManagerState) (buf2 : ProcessLogBufferState Nat)
       (ctrl2 : CtrlBehavior) (dcwd2 : String) (dirOk2 : String → Bool)
       (spawn2 : SpawnOutcome) (now2 : Nat),
      mapGet st2.processes oldId = none →
      getProcessInfo st2 oldId = none ∧
      getProcessLogs st2 buf2 oldId none now2 = none ∧
      (stopProcess st2 oldId ctrl2 now2).1 =
        Except.error (ProcessError.mk ErrorType.PROCESS_NOT_FOUND
          ("Process not found: " ++ toString oldId) none) ∧
      (restartProcess st2 buf2 oldId ctrl2 dcwd2 dirOk2 spawn2 now2).1 =
        Except.error (ProcessError.mk ErrorType.PROCESS_NOT_FOUND
          ("Process not found: " ++ toString oldId) none)) := by
  have hinv := reachable_stateInv st hreach
  have hlt : oldId < st.nextId := (hinv oldId mp hg).1
  have hne2 : st.nextId ≠ oldId := fun h => Nat.lt_irrefl oldId (h ▸ hlt)
  have hgo : restartProcess st buf oldId ctrl defaultCwd dirOk
      (SpawnOutcome.ok pid) now =
      restartGo st buf oldId mp ctrl defaultCwd dirOk (SpawnOutcome.ok pid) now := by
    unfold restartProcess
    rw [hg]
  have hfin : restartGo st buf oldId mp ctrl defaultCwd dirOk
      (SpawnOutcome.ok pid) now =
      restartFinish st buf oldId mp defaultCwd dirOk (SpawnOutcome.ok pid) now := by
    unfold restartGo
    by_cases hrun : mp.status = ProcessStatus.running
    · rw [if_pos hrun]
      have hok := hstop hrun
      have hst := stopProcess_ok_state st oldId ctrl now hok
      rcases hsp : stopProcess st oldId ctrl now with ⟨res, st2, tr⟩
      rw [hsp] at hok hst
      cases res with
      | error e => exact Except.noConfusion hok
      | ok u =>
          have hst2 : st2 = st := hst
          rw [hst2]
    · rw [if_neg hrun]
  have hEq := hgo.trans
    (hfin.trans (restartFinish_ok st buf oldId mp defaultCwd dirOk pid now hdir))
  refine ⟨hEq, hne2, ?_, ?_, ?_, ?_⟩
  · intro i mpi h2
    exact fun he => Nat.lt_irrefl i (he ▸ (hinv i mpi h2).1)
  · rw [mapGet_mapSet, if_neg hne2, mapGet_mapDelete, if_pos rfl]
  · show mapGet (mapDelete buf.buffers oldId) oldId = none
    rw [mapGet_mapDelete, if_pos rfl]
  · intro st2 buf2 ctrl2 dcwd2 dirOk2 spawn2 now2 hnone
    refine ⟨hnone, ?_, ?_, ?_⟩
    · unfold getProcessLogs
      rw [hnone]
    · unfold stopProcess
      rw [hnone]
    · unfold restartProcess
      rw [hnone]

/-- C7 witness: restarting the stopped record 0 of the concrete terminal
supervisor mints the fresh id 1, removes the old record, clears its buffer
and starts the captured configuration. -/
theorem C7_restart_fresh_id_witness :
    (restartProcess demoTerm demoBufN 0 demoCtrl "/" (fun _ => true)
      (SpawnOutcome.ok 77) 9 =
      (Except.ok demoTerm.nextId,
       BgProcessManagerState.mk
         (mapSet (mapDelete demoTerm.processes 0) demoTerm.nextId
           (ManagedProcess.mk demoTerm.nextId 77 demoTermRecord.command
             demoTermRecord.args demoTermRecord.cwd ProcessStatus.running 9
             none none))
         (demoTerm.nextId + 1),
       clearLogs demoBufN 0)) ∧
    demoTerm.nextId ≠ 0 := by
  have h := C7_restart_fresh_id demoTerm demoBufN 0 demoCtrl "/"
    (fun _ => true) 77 9 demoTermRecord
    (Reachable.exitEvt demoStart 0 (some 0) 6
      (Reachable.start { processes := [], nextId := 0 } demoConfig "/"
        (fun _ => true) (SpawnOutcome.ok 42) 5 Reachable.init))
    (by decide) rfl (fun hr => absurd hr (by decide))
  exact ⟨h.1, h.2.1⟩

/-- C9: stopAllProcesses attempts exactly the ids of the records that are
running at call time, in that order, and the attempted set is independent of
the controller behaviour: a failing constituent stop never prevents the
remaining attempts and the aggregate operation itself never fails; with zero
running processes the call returns the state unchanged with no attempts and
the stop-all tool handler reports success with a stopped count of 0; the
response of the handler is a success in every case. -/
theorem C9_stopAll_independent_attempts (st : BgProcessManagerState)
    (ctrl ctrl2 : Nat → CtrlBehavior) (now : Nat) :
    ((stopAllProcesses st ctrl now).2.map Prod.fst = runningIds st) ∧
    ((stopAllProcesses st ctrl now).2.map Prod.fst =
      (stopAllProcesses st ctrl2 now).2.map Prod.fst) ∧
    (runningIds st = [] → stopAllProcesses st ctrl now = (st, [])) ∧
    ((listProcesses st).filter
        (fun p => decide (p.status = ProcessStatus.running)) = [] →
      stopAllHandlerHandle st ctrl now = (StopAllResponse.mk true 0, st)) ∧
    ((stopAllHandlerHandle st ctrl now).1.success = true) := by
  have hids : ∀ (c : Nat → CtrlBehavior),
      ((stopAllProcesses st c now).2).map Prod.fst = runningIds st := by
    intro c
    unfold stopAllProcesses
    rw [stopAllLoop_foldl_ids c now (runningIds st) st []]
    rfl
  refine ⟨hids ctrl, (hids ctrl).trans (hids ctrl2).symm, ?_, ?_, ?_⟩
  · intro hz
    unfold stopAllProcesses
    rw [hz]
    rfl
  · intro hz
    unfold stopAllHandlerHandle
    rw [hz]
    rfl
  · unfold stopAllHandlerHandle
    dsimp only
    split
    · rfl
    · rfl

/-- C9 witness: on the concrete terminal supervisor (no running processes),
the stop-all handler reports success with stopped count 0 and leaves the
state unchanged. -/
theorem C9_stopAll_independent_attempts_witness :
    stopAllHandlerHandle demoTerm (fun _ => demoCtrl) 9 =
      (StopAllResponse.mk true 0, demoTerm) := by
  exact (C9_stopAll_independent_attempts demoTerm (fun _ => demoCtrl)
    (fun _ => demoCtrl) 9).2.2.2.1 (by decide)

end ManageBg
